import Mathlib

/-!
Verification development for the iceoryx WaitSet event-multiplexing core and
the mac platform timer shim.

The WaitSet implementation itself (wait_set.cpp, condition.hpp,
guard_condition.hpp, condition_variable_data.hpp) is not part of the sources
available here; only its module test (test_popo_waitset.cpp) is.  The WaitSet
model below is therefore modelled from the specification, with the module
test fixing the points the prose leaves open (in particular that the
WaitSet's constructor occupies one capacity slot with a built-in guard
condition).  The timer model is translated directly from
iceoryx_utils/platform/mac/source/time.cpp.
-/

namespace IceoryxSpec

/-- Conditions are long-lived objects; the model identifies each by a
numeric id. -/
abbrev ConditionId := Nat

/-- Modelled from the spec: the per-WaitSet state that is missing from the
sources (wait_set.cpp / condition.hpp).  A WaitSet is "a fixed-capacity
collection of attached-Condition references" in attach order, and each
Condition carries an attached flag (`isConditionVariableAttached`), set when
the WaitSet binds it to the shared ConditionVariableData and cleared on
detach.  `capacity` is the compile-time maximum MAX_NUMBER_OF_CONDITIONS. -/
structure WaitSetState where
  capacity : Nat
  attached : List ConditionId
  condVarAttached : ConditionId → Bool

/-- Modelled from the spec: the WaitSet constructor.  The module test
(MAX_NUMBER_OF_CONDITIONS_WITHOUT_GUARD = MAX_NUMBER_OF_CONDITIONS - 1 and
AttachTooManyConditionsResultsInFailure) shows that a built-in guard
condition occupies one slot of the capacity from construction on. -/
def WaitSetState.init (capacity : Nat) (guard : ConditionId) : WaitSetState :=
  { capacity := capacity
    attached := [guard]
    condVarAttached := fun x => x == guard }

/-- Modelled from the spec: `attachCondition(condition)` "scans for a
duplicate; if absent and capacity remains, appends and binds the Condition
to the WaitSet's shared ConditionVariableData; returns failure (no partial
effect) on duplicate or full capacity." -/
def WaitSetState.attachCondition (ws : WaitSetState) (c : ConditionId) :
    Bool × WaitSetState :=
  if c ∈ ws.attached then (false, ws)
  else if ws.capacity ≤ ws.attached.length then (false, ws)
  else (true,
    { ws with
      attached := ws.attached ++ [c]
      condVarAttached := fun x => if x = c then true else ws.condVarAttached x })

/-- Modelled from the spec: `detachCondition(condition)` "scans for the
Condition; if present, removes it and unbinds it; returns failure (no
effect) if absent." -/
def WaitSetState.detachCondition (ws : WaitSetState) (c : ConditionId) :
    Bool × WaitSetState :=
  if c ∈ ws.attached then
    (true,
      { ws with
        attached := ws.attached.erase c
        condVarAttached := fun x => if x = c then false else ws.condVarAttached x })
  else (false, ws)

/-- Clears the per-Condition attached flags of every Condition in the given
list (used by `clear`, which detaches all attached Conditions). -/
def detachFlags : List ConditionId → (ConditionId → Bool) → (ConditionId → Bool)
  | [], f => f
  | c :: rest, f => detachFlags rest (fun x => if x = c then false else f x)

/-- Modelled from the spec: `clear()` "detaches all; idempotent; yields an
empty attached set." -/
def WaitSetState.clear (ws : WaitSetState) : WaitSetState :=
  { ws with
    attached := []
    condVarAttached := detachFlags ws.attached ws.condVarAttached }

/-- Modelled from the spec: one scan of the attached set, collecting (in
attach order) every Condition whose ready flag `hasTrigger()` is true in the
snapshot `trig`. -/
def collectFulfilled (attached : List ConditionId) (trig : ConditionId → Bool) :
    List ConditionId :=
  attached.filter trig

/-- Modelled from the spec: the wait algorithm.  "Repeatedly scans all
attached Conditions for hasTrigger()==true; if the collected subset is
non-empty, returns it (in attach order); otherwise blocks on the shared
Waiter and rescans upon any wakeup."  The successive flag snapshots the
consumer observes at each scan form the `schedule`; `none` means the waiter
is still blocked when the schedule runs out. -/
def waitScan : List (ConditionId → Bool) → List ConditionId →
    Option (List ConditionId)
  | [], _ => none
  | s :: rest, attached =>
    let ready := collectFulfilled attached s
    if ready.isEmpty then waitScan rest attached else some ready

/-- Modelled from the spec: `wait()`, unbounded blocking retrieval over the
wakeup/rescan schedule.  It only reads the attached set. -/
def WaitSetState.wait (ws : WaitSetState) (schedule : List (ConditionId → Bool)) :
    Option (List ConditionId) × WaitSetState :=
  (waitScan schedule ws.attached, ws)

/-- Modelled from the spec: `timedWait(duration)`, the "identical algorithm
bounded by an absolute deadline computed at call entry"; the deadline bounds
how many wakeup/rescan rounds happen, so the schedule here is the finite
sequence of scans before the deadline, and exhaustion is the timeout, which
yields an empty sequence.  "A non-positive duration is treated as
already-expired and returns an empty sequence immediately without
blocking." -/
def WaitSetState.timedWait (ws : WaitSetState) (duration : Int)
    (schedule : List (ConditionId → Bool)) : List ConditionId × WaitSetState :=
  if duration ≤ 0 then ([], ws)
  else ((waitScan schedule ws.attached).getD [], ws)

/-- Modelled from the spec: the operations a user can perform on a WaitSet,
for stating invariants over arbitrary operation sequences. -/
inductive WsOp where
  | attach (c : ConditionId)
  | detach (c : ConditionId)
  | clearAll
  | doWait (schedule : List (ConditionId → Bool))
  | doTimedWait (duration : Int) (schedule : List (ConditionId → Bool))

/-- Applies one operation to a WaitSet state. -/
def applyOp (ws : WaitSetState) : WsOp → WaitSetState
  | .attach c => (ws.attachCondition c).2
  | .detach c => (ws.detachCondition c).2
  | .clearAll => ws.clear
  | .doWait schedule => (ws.wait schedule).2
  | .doTimedWait d schedule => (ws.timedWait d schedule).2

/-- Applies a sequence of operations to a WaitSet state. -/
def applyOps (ws : WaitSetState) : List WsOp → WaitSetState
  | [] => ws
  | op :: rest => applyOps (applyOp ws op) rest

/-- Attaches the Conditions of a list one by one, collecting each call's
boolean result. -/
def attachAll (ws : WaitSetState) : List ConditionId → List Bool × WaitSetState
  | [] => ([], ws)
  | c :: rest =>
    let step := ws.attachCondition c
    let tail := attachAll step.2 rest
    (step.1 :: tail.1, tail.2)

end IceoryxSpec

namespace MacTime

/-- The struct timespec of time.cpp (seconds and nanoseconds). -/
structure Timespec where
  tv_sec : Int
  tv_nsec : Int

/-- The struct itimerspec of time.cpp: interval between expirations and initial value. -/
structure Itimerspec where
  it_interval : Timespec
  it_value : Timespec

/-- The `parameter` block of `appleTimer_t` that `setTimeParameters` and
`timer_settime` touch (`startTime` is the CLOCK_REALTIME reading taken
inside `setTimeParameters`, passed in here as `now`). -/
structure TimerParameter where
  startTime : Timespec
  timeParameters : Itimerspec
  runOnce : Bool
  wasCallbackCalled : Bool
  isTimerRunning : Bool

/-- Function setTimeParameters from time.cpp: records the current time as start
time, stores the requested time parameters, sets `runOnce` and
`isTimerRunning` as instructed and resets `wasCallbackCalled`. -/
def setTimeParameters (p : TimerParameter) (now : Timespec)
    (timeParameters : Itimerspec) (runOnce : Bool) (isTimerRunning : Bool) :
    TimerParameter :=
  { p with
    startTime := now
    timeParameters := timeParameters
    runOnce := runOnce
    wasCallbackCalled := false
    isTimerRunning := isTimerRunning }

/-- Function timer_settime from time.cpp: disarms when `it_value` is all zero,
arms one-shot when `it_interval` is all zero, arms periodic otherwise;
always returns 0. -/
def timer_settime (p : TimerParameter) (now : Timespec)
    (new_value : Itimerspec) : TimerParameter × Int :=
  if new_value.it_value.tv_sec = 0 ∧ new_value.it_value.tv_nsec = 0 then
    (setTimeParameters p now new_value false false, 0)
  else if new_value.it_interval.tv_sec = 0 ∧ new_value.it_interval.tv_nsec = 0 then
    (setTimeParameters p now new_value true true, 0)
  else
    (setTimeParameters p now new_value false true, 0)

end MacTime

namespace IceoryxSpec

theorem detachFlags_eq_false_of_eq_false (l : List ConditionId)
    (f : ConditionId → Bool) (c : ConditionId) (h : f c = false) :
    detachFlags l f c = false := by
  induction l generalizing f with
  | nil => exact h
  | cons a rest ih =>
    simp only [detachFlags]
    apply ih
    by_cases hca : c = a
    · simp [hca]
    · simp [hca, h]

theorem detachFlags_eq_false_of_mem (l : List ConditionId)
    (f : ConditionId → Bool) (c : ConditionId) (h : c ∈ l) :
    detachFlags l f c = false := by
  induction l generalizing f with
  | nil => cases h
  | cons a rest ih =>
    simp only [detachFlags]
    rcases List.mem_cons.mp h with hca | hcr
    · exact detachFlags_eq_false_of_eq_false rest _ c (by simp [hca])
    · exact ih _ hcr

theorem attach_mem_eq (ws : WaitSetState) (c : ConditionId)
    (h : c ∈ ws.attached) : ws.attachCondition c = (false, ws) := by
  simp [WaitSetState.attachCondition, h]

theorem attach_full_eq (ws : WaitSetState) (c : ConditionId)
    (h : c ∉ ws.attached) (hfull : ws.capacity ≤ ws.attached.length) :
    ws.attachCondition c = (false, ws) := by
  simp [WaitSetState.attachCondition, h, hfull]

theorem attach_free_eq (ws : WaitSetState) (c : ConditionId)
    (h : c ∉ ws.attached) (hfree : ws.attached.length < ws.capacity) :
    ws.attachCondition c =
      (true,
        { ws with
          attached := ws.attached ++ [c]
          condVarAttached := fun x => if x = c then true else ws.condVarAttached x }) := by
  simp [WaitSetState.attachCondition, h, Nat.not_le.mpr hfree]

theorem waitScan_eq_some (sched : List (ConditionId → Bool))
    (att : List ConditionId) (r : List ConditionId)
    (h : waitScan sched att = some r) :
    ∃ s, s ∈ sched ∧ r = collectFulfilled att s ∧ r ≠ [] := by
  induction sched with
  | nil => simp [waitScan] at h
  | cons s rest ih =>
    simp only [waitScan] at h
    by_cases hready : (collectFulfilled att s).isEmpty
    · rw [if_pos hready] at h
      obtain ⟨s', hs', hr⟩ := ih h
      exact ⟨s', List.mem_cons_of_mem s hs', hr⟩
    · rw [if_neg hready] at h
      refine ⟨s, List.mem_cons_self s rest, (Option.some_injective _ h).symm, ?_⟩
      rw [← (Option.some_injective _ h)]
      simpa [List.isEmpty_iff] using hready

theorem waitScan_ready (sched : List (ConditionId → Bool))
    (att : List ConditionId) (s : ConditionId → Bool)
    (hs : s ∈ sched) (h : collectFulfilled att s ≠ []) :
    ∃ r, waitScan sched att = some r ∧ r ≠ [] := by
  induction sched with
  | nil => cases hs
  | cons s' rest ih =>
    simp only [waitScan]
    by_cases hready : (collectFulfilled att s').isEmpty
    · rw [if_pos hready]
      rcases List.mem_cons.mp hs with hss | hsr
      · exact absurd (List.isEmpty_iff.mp (hss ▸ hready)) h
      · exact ih hsr
    · rw [if_neg hready]
      exact ⟨collectFulfilled att s', rfl, by simpa [List.isEmpty_iff] using hready⟩

/-- Claim C4: attaching a Condition that is already attached to the WaitSet
returns false and leaves the attached set unchanged; moreover attach
preserves the at-most-once invariant (a Nodup attached set stays Nodup). -/
theorem attach_duplicate_fails (ws : WaitSetState) (c : ConditionId)
    (h : c ∈ ws.attached) :
    ws.attachCondition c = (false, ws) ∧
    (∀ d : ConditionId, ws.attached.Nodup →
      ((ws.attachCondition d).2).attached.Nodup) := by
  refine ⟨attach_mem_eq ws c h, fun d hnd => ?_⟩
  by_cases hd : d ∈ ws.attached
  · rw [attach_mem_eq ws d hd]; exact hnd
  · by_cases hfull : ws.capacity ≤ ws.attached.length
    · rw [attach_full_eq ws d hd hfull]; exact hnd
    · rw [attach_free_eq ws d hd (Nat.not_le.mp hfull)]
      simpa [List.nodup_append] using ⟨hnd, hd⟩

/-- Claim C4 witness at a concrete state. -/
theorem attach_duplicate_fails_witness :
    (1 : ConditionId) ∈ ((WaitSetState.init 3 0).attachCondition 1).2.attached ∧
    ((((WaitSetState.init 3 0).attachCondition 1).2.attachCondition 1).1 = false) :=
  ⟨by decide,
    by
      rw [(attach_duplicate_fails ((WaitSetState.init 3 0).attachCondition 1).2 1
        (by decide)).1]⟩

/-- Claim C5: detaching a Condition that is not currently attached (also one
never attached) returns false and leaves the attached set unchanged. -/
theorem detach_absent_fails (ws : WaitSetState) (c : ConditionId)
    (h : c ∉ ws.attached) : ws.detachCondition c = (false, ws) := by
  simp [WaitSetState.detachCondition, h]

/-- Claim C5 witness at a concrete state. -/
theorem detach_absent_fails_witness :
    (2 : ConditionId) ∉ ((WaitSetState.init 3 0).attachCondition 1).2.attached ∧
    (((WaitSetState.init 3 0).attachCondition 1).2.detachCondition 2).1 = false :=
  ⟨by decide,
    by
      rw [detach_absent_fails ((WaitSetState.init 3 0).attachCondition 1).2 2
        (by decide)]⟩

/-- Claim C6: timedWait with a non-positive duration returns an empty
sequence immediately, whatever the attached set and readiness snapshots
are. -/
theorem timedWait_nonpositive_empty (ws : WaitSetState) (d : Int)
    (sched : List (ConditionId → Bool)) (h : d ≤ 0) :
    ws.timedWait d sched = ([], ws) := by
  simp [WaitSetState.timedWait, h]

/-- Claim C6 witness: even with an attached and ready Condition,
timedWait(0) yields the empty sequence. -/
theorem timedWait_nonpositive_empty_witness :
    (0 : Int) ≤ 0 ∧
    (((WaitSetState.init 3 0).attachCondition 1).2.timedWait 0
        [fun _ => true]).1 = [] := by
  refine ⟨le_refl 0, ?_⟩
  rw [timedWait_nonpositive_empty ((WaitSetState.init 3 0).attachCondition 1).2 0
    [fun _ => true] (le_refl 0)]

/-- Claim C7: clear() empties the attached set, every previously attached
Condition afterwards reports isConditionVariableAttached()==false, and
clear() is idempotent. -/
theorem clear_spec (ws : WaitSetState) :
    ws.clear.attached = [] ∧
    (∀ c : ConditionId, c ∈ ws.attached → ws.clear.condVarAttached c = false) ∧
    ws.clear.clear = ws.clear :=
  ⟨rfl, fun c hc => detachFlags_eq_false_of_mem ws.attached ws.condVarAttached c hc,
    rfl⟩

/-- Claim C7 witness at a concrete state with one previously attached
Condition. -/
theorem clear_spec_witness :
    (((WaitSetState.init 3 0).attachCondition 1).2.clear.attached = []) ∧
    ((1 : ConditionId) ∈ ((WaitSetState.init 3 0).attachCondition 1).2.attached ∧
      ((WaitSetState.init 3 0).attachCondition 1).2.clear.condVarAttached 1 = false) :=
  ⟨(clear_spec ((WaitSetState.init 3 0).attachCondition 1).2).1,
    by decide,
    (clear_spec ((WaitSetState.init 3 0).attachCondition 1).2).2.1 1 (by decide)⟩

/-- Claim C8: wait and timedWait leave the WaitSet state — in particular the
attached set, hence its members, order and size — unchanged however they
return; attach, detach and clear are rendered in the model as total pure
functions that never consult the wakeup schedule. -/
theorem wait_frame (ws : WaitSetState) (sched : List (ConditionId → Bool))
    (d : Int) :
    (ws.wait sched).2.attached = ws.attached ∧
    (ws.timedWait d sched).2.attached = ws.attached ∧
    (ws.wait sched).2 = ws ∧ (ws.timedWait d sched).2 = ws := by
  refine ⟨rfl, ?_, rfl, ?_⟩ <;>
    simp only [WaitSetState.timedWait] <;> split <;> rfl

theorem filter_exact (att : List ConditionId) (s : ConditionId → Bool) :
    (∀ c, c ∈ collectFulfilled att s ↔ c ∈ att ∧ s c = true) ∧
    List.Sublist (collectFulfilled att s) att :=
  ⟨fun _ => List.mem_filter, List.filter_sublist att⟩

/-- Claim C1: whenever wait (or timedWait with positive duration) returns a
result, that result is exactly the attached Conditions whose ready flag is
true in the snapshot observed at return time — no false flag appears — and
the result is a sublist of the attached set, i.e. in attach order. -/
theorem wait_returns_exactly_ready (ws : WaitSetState)
    (sched : List (ConditionId → Bool)) :
    (∀ r, (ws.wait sched).1 = some r →
      ∃ s, s ∈ sched ∧ r = collectFulfilled ws.attached s ∧
        (∀ c, c ∈ r ↔ c ∈ ws.attached ∧ s c = true) ∧
        List.Sublist r ws.attached) ∧
    (∀ d : Int, 0 < d → (ws.timedWait d sched).1 ≠ [] →
      ∃ s, s ∈ sched ∧
        (ws.timedWait d sched).1 = collectFulfilled ws.attached s ∧
        (∀ c, c ∈ (ws.timedWait d sched).1 ↔ c ∈ ws.attached ∧ s c = true) ∧
        List.Sublist (ws.timedWait d sched).1 ws.attached) := by
  constructor
  · intro r h
    obtain ⟨s, hs, hr, _⟩ := waitScan_eq_some sched ws.attached r h
    exact ⟨s, hs, hr, by
      subst hr
      exact (filter_exact ws.attached s).1, by
      subst hr
      exact (filter_exact ws.attached s).2⟩
  · intro d hd hne
    have hpos : ¬d ≤ 0 := not_le.mpr hd
    simp only [WaitSetState.timedWait, if_neg hpos] at hne ⊢
    cases hw : waitScan sched ws.attached with
    | none => rw [hw] at hne; simp at hne
    | some r =>
      obtain ⟨s, hs, hr, _⟩ := waitScan_eq_some sched ws.attached r hw
      simp only [Option.getD_some]
      exact ⟨s, hs, hr, by
        subst hr
        exact (filter_exact ws.attached s).1, by
        subst hr
        exact (filter_exact ws.attached s).2⟩

/-- Claim C1 witness: one attached, ready Condition; wait returns exactly
it. -/
theorem wait_returns_exactly_ready_witness :
    ((((WaitSetState.init 3 0).attachCondition 1).2.wait
        [fun x : ConditionId => x == 1]).1 = some [1]) ∧
    (∃ s, s ∈ [fun x : ConditionId => x == 1] ∧
      ([1] : List ConditionId) =
        collectFulfilled ((WaitSetState.init 3 0).attachCondition 1).2.attached s ∧
      (∀ c, c ∈ ([1] : List ConditionId) ↔
        c ∈ ((WaitSetState.init 3 0).attachCondition 1).2.attached ∧ s c = true) ∧
      List.Sublist [1] ((WaitSetState.init 3 0).attachCondition 1).2.attached) :=
  ⟨rfl,
    (wait_returns_exactly_ready ((WaitSetState.init 3 0).attachCondition 1).2
      [fun x : ConditionId => x == 1]).1 [1] rfl⟩

/-- Claim C2: no lost wakeup — once some rescan snapshot in the schedule
(e.g. the one triggered by a notify that happens after the flag write, the
flag being level-triggered and still set) shows an attached Condition
ready, wait returns a non-empty result instead of blocking forever. -/
theorem no_lost_wakeup (ws : WaitSetState) (sched : List (ConditionId → Bool))
    (s : ConditionId → Bool) (c : ConditionId)
    (hs : s ∈ sched) (hc : c ∈ ws.attached) (ht : s c = true) :
    ∃ r, (ws.wait sched).1 = some r ∧ r ≠ [] := by
  have hne : collectFulfilled ws.attached s ≠ [] := by
    intro hnil
    have hmem : c ∈ collectFulfilled ws.attached s := List.mem_filter.mpr ⟨hc, ht⟩
    rw [hnil] at hmem
    cases hmem
  exact waitScan_ready sched ws.attached s hs hne

/-- Claim C2 witness: the ready Condition 2 is observed by the single
post-notify rescan, and wait returns. -/
theorem no_lost_wakeup_witness :
    ((fun x : ConditionId => x == 2) ∈ [fun x : ConditionId => x == 2] ∧
      (2 : ConditionId) ∈ ((WaitSetState.init 4 0).attachCondition 2).2.attached ∧
      (fun x : ConditionId => x == 2) 2 = true) ∧
    (∃ r, (((WaitSetState.init 4 0).attachCondition 2).2.wait
        [fun x : ConditionId => x == 2]).1 = some r ∧ r ≠ []) :=
  ⟨⟨List.mem_singleton_self _, by decide, rfl⟩,
    no_lost_wakeup ((WaitSetState.init 4 0).attachCondition 2).2
      [fun x : ConditionId => x == 2] (fun x : ConditionId => x == 2) 2
      (List.mem_singleton_self _) (by decide) rfl⟩

theorem detach_absent_eq (ws : WaitSetState) (c : ConditionId)
    (h : c ∉ ws.attached) : ws.detachCondition c = (false, ws) := by
  simp [WaitSetState.detachCondition, h]

theorem attachAll_ok (cs : List ConditionId) (ws : WaitSetState)
    (hnodup : cs.Nodup) (hfresh : ∀ c ∈ cs, c ∉ ws.attached)
    (hcap : ws.attached.length + cs.length ≤ ws.capacity) :
    (∀ b ∈ (attachAll ws cs).1, b = true) ∧
    (attachAll ws cs).2.attached = ws.attached ++ cs ∧
    (attachAll ws cs).2.capacity = ws.capacity := by
  induction cs generalizing ws with
  | nil => simp [attachAll]
  | cons c rest ih =>
    have hc : c ∉ ws.attached := hfresh c (List.mem_cons_self c rest)
    simp only [List.length_cons] at hcap
    have hlt : ws.attached.length < ws.capacity := by omega
    have hrest : rest.Nodup := (List.nodup_cons.mp hnodup).2
    have hcmem : c ∉ rest := (List.nodup_cons.mp hnodup).1
    simp only [attachAll, attach_free_eq ws c hc hlt]
    have hfresh' : ∀ d ∈ rest,
        d ∉ (ws.attached ++ [c] : List ConditionId) := by
      intro d hd
      simp only [List.mem_append, List.mem_singleton]
      rintro (hda | hdc)
      · exact hfresh d (List.mem_cons_of_mem c hd) hda
      · exact hcmem (hdc ▸ hd)
    have hcap' : (ws.attached ++ [c]).length + rest.length ≤ ws.capacity := by
      simp only [List.length_append, List.length_cons, List.length_nil]
      omega
    obtain ⟨hball, hatt, hcapeq⟩ :=
      ih { ws with
            attached := ws.attached ++ [c]
            condVarAttached := fun x => if x = c then true
              else ws.condVarAttached x }
        hrest hfresh' hcap'
    refine ⟨?_, ?_, hcapeq⟩
    · intro b hb
      rcases List.mem_cons.mp hb with hb | hb
      · exact hb
      · exact hball b hb
    · rw [hatt, List.append_assoc, List.singleton_append]

theorem detach_mem_eq (ws : WaitSetState) (c : ConditionId)
    (h : c ∈ ws.attached) :
    ws.detachCondition c =
      (true,
        { ws with
          attached := ws.attached.erase c
          condVarAttached := fun x => if x = c then false
            else ws.condVarAttached x }) := by
  simp [WaitSetState.detachCondition, h]

theorem timedWait_state_eq (ws : WaitSetState) (d : Int)
    (sched : List (ConditionId → Bool)) : (ws.timedWait d sched).2 = ws := by
  simp only [WaitSetState.timedWait]
  split <;> rfl

theorem applyOp_bound (ws : WaitSetState) (op : WsOp)
    (h : ws.attached.length ≤ ws.capacity) :
    (applyOp ws op).attached.length ≤ ws.capacity ∧
    (applyOp ws op).capacity = ws.capacity := by
  cases op with
  | attach c =>
    show (ws.attachCondition c).2.attached.length ≤ ws.capacity ∧
      (ws.attachCondition c).2.capacity = ws.capacity
    by_cases hc : c ∈ ws.attached
    · rw [attach_mem_eq ws c hc]
      exact ⟨h, rfl⟩
    · by_cases hfull : ws.capacity ≤ ws.attached.length
      · rw [attach_full_eq ws c hc hfull]
        exact ⟨h, rfl⟩
      · have hlt := Nat.not_le.mp hfull
        rw [attach_free_eq ws c hc hlt]
        refine ⟨?_, rfl⟩
        show (ws.attached ++ [c]).length ≤ ws.capacity
        simp only [List.length_append, List.length_cons, List.length_nil]
        omega
  | detach c =>
    show (ws.detachCondition c).2.attached.length ≤ ws.capacity ∧
      (ws.detachCondition c).2.capacity = ws.capacity
    by_cases hc : c ∈ ws.attached
    · rw [detach_mem_eq ws c hc]
      exact ⟨le_trans (List.Sublist.length_le (List.erase_sublist c ws.attached)) h,
        rfl⟩
    · rw [detach_absent_eq ws c hc]
      exact ⟨h, rfl⟩
  | clearAll =>
    exact ⟨Nat.zero_le ws.capacity, rfl⟩
  | doWait sched => exact ⟨h, rfl⟩
  | doTimedWait d sched =>
    show (ws.timedWait d sched).2.attached.length ≤ ws.capacity ∧
      (ws.timedWait d sched).2.capacity = ws.capacity
    rw [timedWait_state_eq ws d sched]
    exact ⟨h, rfl⟩

theorem applyOps_bound (ops : List WsOp) (ws : WaitSetState)
    (h : ws.attached.length ≤ ws.capacity) :
    (applyOps ws ops).attached.length ≤ ws.capacity ∧
    (applyOps ws ops).capacity = ws.capacity := by
  induction ops generalizing ws with
  | nil => exact ⟨h, rfl⟩
  | cons op rest ih =>
    obtain ⟨h1, h2⟩ := applyOp_bound ws op h
    obtain ⟨g1, g2⟩ := ih (applyOp ws op) (by rw [h2]; exact h1)
    rw [h2] at g1 g2
    exact ⟨g1, g2⟩

/-- Claim C3 counterexample: take MAX_NUMBER_OF_CONDITIONS = 3 (guard id 0)
and the distinct Conditions 1, 2, 3.  The first two attach calls succeed,
but the third — still within "exactly the maximum number of distinct
Conditions" — already fails, because the built-in guard holds one slot. -/
theorem attach_capacity_claim_false :
    ((WaitSetState.init 3 0).attachCondition 1).1 = true ∧
    (((WaitSetState.init 3 0).attachCondition 1).2.attachCondition 2).1 = true ∧
    ((((WaitSetState.init 3 0).attachCondition 1).2.attachCondition 2).2.attachCondition
        3).1 = false := by
  decide

/-- Claim C3 (amended): attaching capacity-minus-one distinct fresh
Conditions succeeds call by call (one slot is held by the built-in guard);
a further attach of a new Condition returns false leaving the attached set
exactly as it was; and after any sequence of operations the attached-set
size never exceeds the capacity. -/
theorem attach_capacity_with_guard (cap : Nat) (g extra : ConditionId)
    (cs : List ConditionId) (hcap : 1 ≤ cap) (hlen : cs.length = cap - 1)
    (hnodup : cs.Nodup) (hg : g ∉ cs) (hextra : extra ∉ cs)
    (hge : extra ≠ g) :
    (∀ b ∈ (attachAll (WaitSetState.init cap g) cs).1, b = true) ∧
    (attachAll (WaitSetState.init cap g) cs).2.attached = g :: cs ∧
    (attachAll (WaitSetState.init cap g) cs).2.attachCondition extra =
      (false, (attachAll (WaitSetState.init cap g) cs).2) ∧
    (∀ ops : List WsOp,
      (applyOps (WaitSetState.init cap g) ops).attached.length ≤ cap) := by
  have hinit : (WaitSetState.init cap g).attached = [g] := rfl
  have hfresh : ∀ c ∈ cs, c ∉ (WaitSetState.init cap g).attached := by
    intro c hc
    rw [hinit, List.mem_singleton]
    intro hcg
    exact hg (hcg ▸ hc)
  have hcap' : (WaitSetState.init cap g).attached.length + cs.length ≤
      (WaitSetState.init cap g).capacity := by
    rw [hinit, hlen]
    simp only [List.length_singleton, WaitSetState.init]
    omega
  obtain ⟨hball, hatt, hcapeq⟩ := attachAll_ok cs (WaitSetState.init cap g)
    hnodup hfresh hcap'
  rw [hinit, List.singleton_append] at hatt
  refine ⟨hball, hatt, ?_, ?_⟩
  · apply attach_full_eq
    · rw [hatt]
      simp only [List.mem_cons]
      rintro (hx | hx)
      · exact hge hx
      · exact hextra hx
    · rw [hatt, hcapeq]
      simp only [List.length_cons, hlen, WaitSetState.init]
      omega
  · intro ops
    have := applyOps_bound ops (WaitSetState.init cap g)
      (by rw [hinit]; simp only [List.length_singleton, WaitSetState.init]; omega)
    exact this.1

/-- Claim C3 witness: capacity 3, guard 0, user Conditions 1 and 2, further
Condition 5. -/
theorem attach_capacity_with_guard_witness :
    (1 ≤ 3 ∧ ([1, 2] : List ConditionId).length = 3 - 1 ∧
      ([1, 2] : List ConditionId).Nodup ∧ (0 : ConditionId) ∉ [1, 2] ∧
      (5 : ConditionId) ∉ [1, 2] ∧ (5 : ConditionId) ≠ 0) ∧
    (attachAll (WaitSetState.init 3 0) [1, 2]).2.attached = 0 :: [1, 2] ∧
    (attachAll (WaitSetState.init 3 0) [1, 2]).2.attachCondition 5 =
      (false, (attachAll (WaitSetState.init 3 0) [1, 2]).2) :=
  ⟨by decide,
    (attach_capacity_with_guard 3 0 5 [1, 2] (by decide) (by decide)
      (by decide) (by decide) (by decide) (by decide)).2.1,
    (attach_capacity_with_guard 3 0 5 [1, 2] (by decide) (by decide)
      (by decide) (by decide) (by decide) (by decide)).2.2.1⟩

/-- Claim C9: only MAX_NUMBER_OF_CONDITIONS - 1 user Conditions fit: the
built-in guard occupies one slot, so capacity-minus-one distinct fresh
attach calls all succeed and the very next attachCondition call returns
false. -/
theorem user_capacity_max_minus_one (cap : Nat) (g extra : ConditionId)
    (cs : List ConditionId) (hcap : 1 ≤ cap) (hlen : cs.length = cap - 1)
    (hnodup : cs.Nodup) (hg : g ∉ cs) (hextra : extra ∉ cs)
    (hge : extra ≠ g) :
    (∀ b ∈ (attachAll (WaitSetState.init cap g) cs).1, b = true) ∧
    ((attachAll (WaitSetState.init cap g) cs).2.attachCondition extra).1 =
      false := by
  have hinit : (WaitSetState.init cap g).attached = [g] := rfl
  have hfresh : ∀ c ∈ cs, c ∉ (WaitSetState.init cap g).attached := by
    intro c hc
    rw [hinit, List.mem_singleton]
    intro hcg
    exact hg (hcg ▸ hc)
  have hcap' : (WaitSetState.init cap g).attached.length + cs.length ≤
      (WaitSetState.init cap g).capacity := by
    rw [hinit, hlen]
    simp only [List.length_singleton, WaitSetState.init]
    omega
  obtain ⟨hball, hatt, hcapeq⟩ := attachAll_ok cs (WaitSetState.init cap g)
    hnodup hfresh hcap'
  rw [hinit, List.singleton_append] at hatt
  refine ⟨hball, ?_⟩
  rw [attach_full_eq]
  · rw [hatt]
    simp only [List.mem_cons]
    rintro (hx | hx)
    · exact hge hx
    · exact hextra hx
  · rw [hatt, hcapeq]
    simp only [List.length_cons, hlen, WaitSetState.init]
    omega

/-- Claim C9 witness: capacity 4, guard 0, user Conditions 1, 2, 3, further
Condition 7. -/
theorem user_capacity_max_minus_one_witness :
    (1 ≤ 4 ∧ ([1, 2, 3] : List ConditionId).length = 4 - 1 ∧
      ([1, 2, 3] : List ConditionId).Nodup ∧ (0 : ConditionId) ∉ [1, 2, 3] ∧
      (7 : ConditionId) ∉ [1, 2, 3] ∧ (7 : ConditionId) ≠ 0) ∧
    ((attachAll (WaitSetState.init 4 0) [1, 2, 3]).2.attachCondition 7).1 =
      false :=
  ⟨by decide,
    (user_capacity_max_minus_one 4 0 7 [1, 2, 3] (by decide) (by decide)
      (by decide) (by decide) (by decide) (by decide)).2⟩

end IceoryxSpec

namespace MacTime

/-- Claim C10: timer_settime classifies a request purely from new_value's
fields — all-zero it_value disarms; otherwise all-zero it_interval arms
one-shot (runOnce, running); otherwise arms periodic — and always returns
0. -/
theorem timer_settime_spec (p : TimerParameter) (now : Timespec)
    (nv : Itimerspec) :
    (timer_settime p now nv).2 = 0 ∧
    ((nv.it_value.tv_sec = 0 ∧ nv.it_value.tv_nsec = 0) →
      (timer_settime p now nv).1.isTimerRunning = false) ∧
    (¬(nv.it_value.tv_sec = 0 ∧ nv.it_value.tv_nsec = 0) →
      (nv.it_interval.tv_sec = 0 ∧ nv.it_interval.tv_nsec = 0) →
      (timer_settime p now nv).1.runOnce = true ∧
        (timer_settime p now nv).1.isTimerRunning = true) ∧
    (¬(nv.it_value.tv_sec = 0 ∧ nv.it_value.tv_nsec = 0) →
      ¬(nv.it_interval.tv_sec = 0 ∧ nv.it_interval.tv_nsec = 0) →
      (timer_settime p now nv).1.runOnce = false ∧
        (timer_settime p now nv).1.isTimerRunning = true) := by
  by_cases hv : nv.it_value.tv_sec = 0 ∧ nv.it_value.tv_nsec = 0
  · simp [timer_settime, setTimeParameters, hv]
  · by_cases hi : nv.it_interval.tv_sec = 0 ∧ nv.it_interval.tv_nsec = 0
    · simp [timer_settime, setTimeParameters, hv, hi]
    · simp [timer_settime, setTimeParameters, hv, hi]

/-- Claim C10 witness: the three classifications and the return value at
concrete arguments. -/
theorem timer_settime_spec_witness :
    (timer_settime ⟨⟨0, 0⟩, ⟨⟨0, 0⟩, ⟨0, 0⟩⟩, false, false, false⟩ ⟨5, 5⟩
        ⟨⟨0, 0⟩, ⟨0, 0⟩⟩).1.isTimerRunning = false ∧
    ((timer_settime ⟨⟨0, 0⟩, ⟨⟨0, 0⟩, ⟨0, 0⟩⟩, false, false, false⟩ ⟨5, 5⟩
        ⟨⟨0, 0⟩, ⟨1, 0⟩⟩).1.runOnce = true ∧
      (timer_settime ⟨⟨0, 0⟩, ⟨⟨0, 0⟩, ⟨0, 0⟩⟩, false, false, false⟩ ⟨5, 5⟩
        ⟨⟨0, 0⟩, ⟨1, 0⟩⟩).1.isTimerRunning = true) ∧
    ((timer_settime ⟨⟨0, 0⟩, ⟨⟨0, 0⟩, ⟨0, 0⟩⟩, false, false, false⟩ ⟨5, 5⟩
        ⟨⟨2, 0⟩, ⟨1, 0⟩⟩).1.runOnce = false ∧
      (timer_settime ⟨⟨0, 0⟩, ⟨⟨0, 0⟩, ⟨0, 0⟩⟩, false, false, false⟩ ⟨5, 5⟩
        ⟨⟨2, 0⟩, ⟨1, 0⟩⟩).1.isTimerRunning = true) ∧
    (timer_settime ⟨⟨0, 0⟩, ⟨⟨0, 0⟩, ⟨0, 0⟩⟩, false, false, false⟩ ⟨5, 5⟩
        ⟨⟨0, 0⟩, ⟨0, 0⟩⟩).2 = 0 :=
  ⟨(timer_settime_spec _ _ _).2.1 (by exact ⟨rfl, rfl⟩),
    (timer_settime_spec _ _ _).2.2.1 (by simp) (by exact ⟨rfl, rfl⟩),
    (timer_settime_spec _ _ _).2.2.2 (by simp) (by simp),
    (timer_settime_spec _ _ _).1⟩

end MacTime
